import Mathlib

/-!
Shallow embedding of the analytic-engine repository: the record
validator/normalizer and ingestion loop (`src/apps/uploads/tasks.py`), the
upload gateway pre-checks (`src/apps/uploads/api.py`), and the analytics
endpoints (`src/apps/analytics/api.py`).  Host-language behaviour the code
relies on (CPython `datetime`, `Decimal`, `re`, `str` methods, Django
settings `USE_TZ = True` / `TIME_ZONE = "UTC"`, and Django's `Paginator`)
is embedded explicitly.  Parsed amounts are kept in Python `Decimal`'s own
exact mantissa/exponent form; they are read as rationals where the
analytics compare them.
-/

/-- Numeric value of a list of ASCII digit characters. -/
def digitsVal (l : List Char) : Nat :=
  l.foldl (fun n c => n * 10 + (c.toNat - 48)) 0

/-- Two mandatory ASCII digits, as in the fixed-width fields of ISO-8601. -/
def twoDigits (a b : Char) : Option Nat :=
  if a.isDigit && b.isDigit then some ((a.toNat - 48) * 10 + (b.toNat - 48)) else none

/-- Python `str.strip` on a character list: whitespace removed from both
ends. -/
def trimChars (l : List Char) : List Char :=
  ((l.dropWhile Char.isWhitespace).reverse.dropWhile Char.isWhitespace).reverse

/-- Python `str.strip` on a string. -/
def strTrim (s : String) : String :=
  String.mk (trimChars s.data)

/-- Python `str.upper` on ASCII text. -/
def strUpper (s : String) : String :=
  String.mk (s.data.map Char.toUpper)

/-- Python `str.replace` with a single-character pattern. -/
def replaceChar (a : Char) (r : List Char) (l : List Char) : List Char :=
  l.flatMap (fun c => if c = a then r else [c])

/-- Python `str.endswith`. -/
def strEndsWith (s suffix : String) : Bool :=
  decide (s.data.drop (s.data.length - suffix.data.length) = suffix.data)

/-- Gregorian leap-year rule (as Python's `datetime`). -/
def isLeap (y : Int) : Bool :=
  y % 4 = 0 && (y % 100 ≠ 0 || y % 400 = 0)

/-- Days in a month, as validated by Python's `datetime` constructor. -/
def daysInMonth (y : Int) (m : Nat) : Nat :=
  if m = 2 then (if isLeap y then 29 else 28)
  else if m = 4 ∨ m = 6 ∨ m = 9 ∨ m = 11 then 30
  else 31

/-- Days from 1970-01-01 for a civil date (the standard Gregorian formula,
matching Python's `datetime.toordinal` up to the epoch shift). -/
def daysFromCivil (y : Int) (m d : Nat) : Int :=
  let y2 : Int := if m ≤ 2 then y - 1 else y
  let era : Int := (if 0 ≤ y2 then y2 else y2 - 399) / 400
  let yoe : Int := y2 - era * 400
  let doy : Int := (153 * ((m : Int) + (if 2 < m then -3 else 9)) + 2) / 5 + (d : Int) - 1
  let doe : Int := yoe * 365 + yoe / 4 - yoe / 100 + doy
  era * 146097 + doe - 719468

/-- A Python `datetime` value: civil fields plus an optional UTC offset in
seconds.  `offset = none` is a naive datetime, `offset = some o` an aware
one (as produced by `fromisoformat` with a zone suffix or by
`django.utils.timezone`). -/
structure DT where
  year : Int
  month : Nat
  day : Nat
  hour : Nat
  minute : Nat
  second : Nat
  micro : Nat
  offset : Option Int
deriving DecidableEq, Repr, Inhabited

/-- Microseconds since the epoch of a datetime read at a given UTC offset. -/
def epochMicros (t : DT) (off : Int) : Int :=
  ((daysFromCivil t.year t.month t.day) * 86400
      + (t.hour : Int) * 3600 + (t.minute : Int) * 60 + (t.second : Int) - off) * 1000000
    + (t.micro : Int)

/-- Python's `>` on datetimes: defined between two naive or two aware values;
`none` models the `TypeError` raised when naive and aware are mixed. -/
def dtAfter (a b : DT) : Option Bool :=
  match a.offset, b.offset with
  | some oa, some ob => some (decide (epochMicros b ob < epochMicros a oa))
  | none, none => some (decide (epochMicros b 0 < epochMicros a 0))
  | _, _ => none

/-- Fractional-second part of CPython's pre-3.11 `fromisoformat` grammar:
either absent, or a dot followed by exactly 3 or exactly 6 digits. -/
def parseIsoFrac : List Char → Option (Nat × List Char)
  | '.' :: r =>
    let ds := r.takeWhile Char.isDigit
    let rest := r.dropWhile Char.isDigit
    if ds.length = 3 then some (digitsVal ds * 1000, rest)
    else if ds.length = 6 then some (digitsVal ds, rest)
    else none
  | l => some (0, l)

/-- Zone suffix of `fromisoformat`: empty (naive) or `±HH:MM[:SS]`, giving an
offset in seconds. -/
def parseIsoOffset : List Char → Option (Option Int)
  | [] => some none
  | s :: h1 :: h2 :: ':' :: m1 :: m2 :: rest =>
    if s = '+' ∨ s = '-' then
      match twoDigits h1 h2, twoDigits m1 m2 with
      | some hh, some mm =>
        if hh ≤ 23 ∧ mm ≤ 59 then
          let base : Int := (hh : Int) * 3600 + (mm : Int) * 60
          match rest with
          | [] => some (some (if s = '-' then -base else base))
          | ':' :: s1 :: s2 :: [] =>
            match twoDigits s1 s2 with
            | some ss =>
              if ss ≤ 59 then
                let tot : Int := base + (ss : Int)
                some (some (if s = '-' then -tot else tot))
              else none
            | none => none
          | _ => none
        else none
      | _, _ => none
    else none
  | _ => none

/-- Time-of-day part of `fromisoformat`: `HH[:MM[:SS[.fff(fff)]]]` then an
optional zone suffix. -/
def parseIsoTime (l : List Char) : Option (Nat × Nat × Nat × Nat × Option Int) :=
  match l with
  | h1 :: h2 :: rest =>
    match twoDigits h1 h2 with
    | none => none
    | some hh =>
      if 23 < hh then none
      else
        match rest with
        | ':' :: m1 :: m2 :: rest2 =>
          match twoDigits m1 m2 with
          | none => none
          | some mm =>
            if 59 < mm then none
            else
              match rest2 with
              | ':' :: s1 :: s2 :: rest3 =>
                match twoDigits s1 s2 with
                | none => none
                | some ss =>
                  if 59 < ss then none
                  else
                    match parseIsoFrac rest3 with
                    | none => none
                    | some (us, rest4) =>
                      match parseIsoOffset rest4 with
                      | none => none
                      | some off => some (hh, mm, ss, us, off)
              | rest3 =>
                match parseIsoOffset rest3 with
                | none => none
                | some off => some (hh, mm, 0, 0, off)
        | rest2 =>
          match parseIsoOffset rest2 with
          | none => none
          | some off => some (hh, 0, 0, 0, off)
  | _ => none

/-- CPython's (pre-3.11, documented) `datetime.fromisoformat`: a strict
`YYYY-MM-DD` date, then optionally one separator character and a time, with
range validation as in the `datetime` constructor. -/
def parseIso (l : List Char) : Option DT :=
  match l with
  | y1 :: y2 :: y3 :: y4 :: '-' :: mo1 :: mo2 :: '-' :: d1 :: d2 :: rest =>
    if (y1.isDigit && y2.isDigit && y3.isDigit && y4.isDigit) then
      let yy : Int := (digitsVal [y1, y2, y3, y4] : Int)
      match twoDigits mo1 mo2, twoDigits d1 d2 with
      | some mo, some dd =>
        if 1 ≤ yy ∧ 1 ≤ mo ∧ mo ≤ 12 ∧ 1 ≤ dd ∧ dd ≤ daysInMonth yy mo then
          match rest with
          | [] => some ⟨yy, mo, dd, 0, 0, 0, 0, none⟩
          | _sep :: trest =>
            match parseIsoTime trest with
            | some (hh, mm, ss, us, off) => some ⟨yy, mo, dd, hh, mm, ss, us, off⟩
            | none => none
        else none
      | _, _ => none
    else none
  | _ => none

/-- A token of a `strptime` format string: a literal character, whitespace
(matching one or more whitespace characters), or a numeric directive with its
maximal digit width (`%Y` four, the others two). -/
inductive FTok where
  | lit (c : Char)
  | ws
  | year
  | mon
  | day
  | hourT
  | minuteT
  | secondT
deriving DecidableEq, Repr

/-- Greedy numeric field of `strptime`: up to `maxLen` leading digits, at
least one. -/
def takeNum (maxLen : Nat) (l : List Char) : Option (Nat × List Char) :=
  let ds := (l.takeWhile Char.isDigit).take maxLen
  if ds = [] then none else some (digitsVal ds, l.drop ds.length)

/-- Partial result of a `strptime` run (defaults are 1900-01-01 00:00:00, as
in CPython's `_strptime`). -/
structure StpAcc where
  y : Nat := 1900
  mo : Nat := 1
  dd : Nat := 1
  hh : Nat := 0
  mi : Nat := 0
  ss : Nat := 0
deriving DecidableEq, Repr

/-- Run a format over the input; the whole input must be consumed
(`strptime` raises on unconverted data). -/
def runFmt : List FTok → List Char → StpAcc → Option StpAcc
  | [], [], acc => some acc
  | [], _ :: _, _ => none
  | .lit c :: ft, x :: xs, acc => if x = c then runFmt ft xs acc else none
  | .lit _ :: _, [], _ => none
  | .ws :: ft, x :: xs, acc =>
    if x.isWhitespace then runFmt ft (xs.dropWhile Char.isWhitespace) acc else none
  | .ws :: _, [], _ => none
  | .year :: ft, l, acc =>
    match takeNum 4 l with
    | some (n, r) => runFmt ft r { acc with y := n }
    | none => none
  | .mon :: ft, l, acc =>
    match takeNum 2 l with
    | some (n, r) => runFmt ft r { acc with mo := n }
    | none => none
  | .day :: ft, l, acc =>
    match takeNum 2 l with
    | some (n, r) => runFmt ft r { acc with dd := n }
    | none => none
  | .hourT :: ft, l, acc =>
    match takeNum 2 l with
    | some (n, r) => runFmt ft r { acc with hh := n }
    | none => none
  | .minuteT :: ft, l, acc =>
    match takeNum 2 l with
    | some (n, r) => runFmt ft r { acc with mi := n }
    | none => none
  | .secondT :: ft, l, acc =>
    match takeNum 2 l with
    | some (n, r) => runFmt ft r { acc with ss := n }
    | none => none

/-- One `strptime` attempt: parse with the format, then validate ranges as
the directive classes and the `datetime` constructor do.  The result is a
naive datetime. -/
def strptimeFmt (ft : List FTok) (l : List Char) : Option DT :=
  match runFmt ft l {} with
  | none => none
  | some acc =>
    if 1 ≤ acc.y ∧ 1 ≤ acc.mo ∧ acc.mo ≤ 12 ∧ 1 ≤ acc.dd ∧
        acc.dd ≤ daysInMonth (acc.y : Int) acc.mo ∧
        acc.hh ≤ 23 ∧ acc.mi ≤ 59 ∧ acc.ss ≤ 59 then
      some ⟨(acc.y : Int), acc.mo, acc.dd, acc.hh, acc.mi, acc.ss, 0, none⟩
    else none

/-- The validator's ordered fallback formats: `%Y-%m-%d %H:%M:%S`,
`%Y-%m-%d %H:%M`, `%Y/%m/%d %H:%M:%S`, `%d/%m/%Y %H:%M:%S`, `%Y-%m-%d`. -/
def fallbackFormats : List (List FTok) :=
  [ [.year, .lit '-', .mon, .lit '-', .day, .ws, .hourT, .lit ':', .minuteT, .lit ':', .secondT]
  , [.year, .lit '-', .mon, .lit '-', .day, .ws, .hourT, .lit ':', .minuteT]
  , [.year, .lit '/', .mon, .lit '/', .day, .ws, .hourT, .lit ':', .minuteT, .lit ':', .secondT]
  , [.day, .lit '/', .mon, .lit '/', .year, .ws, .hourT, .lit ':', .minuteT, .lit ':', .secondT]
  , [.year, .lit '-', .mon, .lit '-', .day] ]

/-- First fallback format that matches wins. -/
def tryFormats (l : List Char) : Option DT :=
  (fallbackFormats.map (fun ft => strptimeFmt ft l)).foldr (fun a b => a.orElse (fun _ => b)) none

/-- A Python `Decimal` value as its exact mantissa/exponent pair: the number
`mant / 10 ^ exp`. -/
structure Dec where
  mant : Int
  exp : Nat
deriving DecidableEq, Repr, Inhabited

/-- The rational a `Decimal` denotes. -/
def Dec.toRat (d : Dec) : ℚ :=
  (d.mant : ℚ) / (10 : ℚ) ^ d.exp

/-- Python's `amount < 0` on a `Decimal`. -/
def Dec.isNeg (d : Dec) : Bool :=
  d.mant < 0

/-- Python's `amount > n` on a `Decimal` against an integer literal. -/
def Dec.gtNat (d : Dec) (n : Nat) : Bool :=
  (n : Int) * (10 : Int) ^ d.exp < d.mant

/-- The characters the amount cleaner keeps: `re.sub(r'[^\d.-]', '', s)`. -/
def stripAmountChars (s : String) : List Char :=
  s.data.filter (fun c => c.isDigit || c = '.' || c = '-')

/-- Unsigned part of Python's `Decimal` literal syntax over the stripped
alphabet: digits, an optional dot, digits, with at least one digit. -/
def parseUnsignedDecimal (l : List Char) : Option Dec :=
  let intPart := l.takeWhile Char.isDigit
  let rest := l.dropWhile Char.isDigit
  match rest with
  | [] => if intPart = [] then none else some ⟨(digitsVal intPart : Int), 0⟩
  | '.' :: frac =>
    if frac.all Char.isDigit && (intPart ≠ [] || frac ≠ []) then
      some ⟨(digitsVal (intPart ++ frac) : Int), frac.length⟩
    else none
  | _ => none

/-- Python's `Decimal(str)` on strings over the stripped alphabet: an
optional leading minus sign, then an unsigned decimal literal. -/
def parseDecimal (l : List Char) : Option Dec :=
  match l with
  | '-' :: rest => (parseUnsignedDecimal rest).map (fun d => ⟨-d.mant, d.exp⟩)
  | _ => parseUnsignedDecimal l

/-- The validator's amount stage (`tasks.py` lines 157-172): strip everything
but digits, dot and minus; parse as an exact decimal; reject a parse failure,
a negative value, or a value strictly above 1,000,000. -/
def cleanAmount (s : String) : Option Dec :=
  match parseDecimal (stripAmountChars s) with
  | none => none
  | some a => if a.isNeg then none else if a.gtNat 1000000 then none else some a

/-- The validator's phone stage (`tasks.py` lines 213-221): on a non-empty
raw phone, keep digits and plus signs; if the digit count is outside
[10, 15] substitute the sentinel `INVALID`, otherwise keep the stripped
string.  An empty raw phone is left untouched. -/
def cleanPhone (p : String) : String :=
  if p = "" then p
  else
    let pc := p.data.filter (fun c => c.isDigit || c = '+')
    let dc := (pc.filter Char.isDigit).length
    if dc < 10 || 15 < dc then "INVALID" else String.mk pc

/-- The fixed category synonym table of `clean_transaction_data`, keyed by
the upper-cased title-cased category. -/
def categoryMapping (s : String) : Option String :=
  match s with
  | "GROCERY" => some "Grocery"
  | "GROCERIES" => some "Grocery"
  | "FOOD" => some "Food"
  | "ELECTRONICS" => some "Electronics"
  | "ELECTRONIC" => some "Electronics"
  | "FASHION" => some "Fashion"
  | "CLOTHING" => some "Fashion"
  | "CLOTHES" => some "Fashion"
  | "TRANSPORT" => some "Transport"
  | "TRANSPORTATION" => some "Transport"
  | "UTILITIES" => some "Utilities"
  | "UTILITY" => some "Utilities"
  | "HEALTHCARE" => some "Healthcare"
  | "HEALTH" => some "Healthcare"
  | "EDUCATION" => some "Education"
  | "EDU" => some "Education"
  | _ => none

/-- Python's `str.title` on ASCII text: the first letter of each letter-run
upper-cased, the rest lower-cased. -/
def titleCaseAux : List Char → Bool → List Char
  | [], _ => []
  | c :: cs, prevAlpha =>
    (if c.isAlpha then (if prevAlpha then c.toLower else c.toUpper) else c)
      :: titleCaseAux cs c.isAlpha

/-- Python's `str.title` on a string. -/
def titleCase (s : String) : String :=
  String.mk (titleCaseAux s.data false)

/-- The validator's timestamp stage (`tasks.py` lines 174-211).  The strict
ISO attempt sees the string with every `Z` replaced by `+00:00`; the fallback
formats see the original string and their naive result is made aware in the
reference zone (UTC, per `TIME_ZONE`/`USE_TZ`).  The final future check uses
Python's `>` against the aware `timezone.now()`; the `TypeError` it raises on
a naive left operand is caught by the surrounding handler, so a comparison
failure is a rejection. -/
def cleanTimestamp (s : String) (now : DT) : Option DT :=
  let ts : List Char := trimChars (replaceChar '\n' [' '] s.data)
  match parseIso (replaceChar 'Z' ("+00:00".data) ts) with
  | some t =>
    match dtAfter t now with
    | none => none
    | some true => none
    | some false => some t
  | none =>
    match tryFormats ts with
    | none => none
    | some t0 =>
      let t : DT := { t0 with offset := some 0 }
      match dtAfter t now with
      | none => none
      | some true => none
      | some false => some t

/-- A raw CSV row as `csv.DictReader` hands it to `clean_transaction_data`:
the seven column values, a missing or null column read as the empty string. -/
structure RawRow where
  transaction_id : String
  merchant_id : String
  zone : String
  category : String
  amount : String
  timestamp : String
  customer_phone : String
deriving DecidableEq, Repr, Inhabited

/-- A validated, normalized transaction record as returned by
`clean_transaction_data` and persisted by the pipeline. -/
structure TxRecord where
  transaction_id : String
  merchant_id : String
  zone : String
  category : String
  amount : Dec
  timestamp : DT
  customer_phone : String
deriving DecidableEq, Repr, Inhabited

/-- The record validator/normalizer `clean_transaction_data` (`tasks.py`
lines 126-240), with `now` the aware instant `django.utils.timezone.now()`.
The lazy `Merchant.objects.get_or_create` side effect does not affect the
returned value and is not represented. -/
def cleanTransactionData (row : RawRow) (now : DT) : Option TxRecord :=
  if strTrim row.transaction_id = "" ∨ strTrim row.merchant_id = "" ∨
      strUpper (strTrim row.zone) = "" ∨ titleCase (strTrim row.category) = "" ∨
      strTrim row.amount = "" ∨ strTrim row.timestamp = "" then none
  else
    match cleanAmount (strTrim row.amount) with
    | none => none
    | some amount =>
      match cleanTimestamp (strTrim row.timestamp) now with
      | none => none
      | some ts =>
        some { transaction_id := strTrim row.transaction_id,
               merchant_id := strTrim row.merchant_id,
               zone := strUpper (strTrim row.zone),
               category := (categoryMapping (strUpper (titleCase (strTrim row.category)))).getD
                 (titleCase (strTrim row.category)),
               amount := amount, timestamp := ts,
               customer_phone := cleanPhone (strTrim row.customer_phone) }

/-- Running state of `process_csv_file`'s row loop (`tasks.py` lines 38-72):
the progress counters, the pending batch, and the number of
`Transaction.objects.bulk_create` round-trips issued so far. -/
structure IngestState where
  rows_processed : Nat
  rows_failed : Nat
  batch : List TxRecord
  bulk_calls : Nat
deriving DecidableEq, Repr

/-- One iteration of the row loop: a validated record joins the batch, which
is flushed (one bulk insert, conflicts ignored, counted into
`rows_processed`) on reaching the fixed capacity 1000; a rejected record
increments `rows_failed`.  The store is modelled as reliable, as the spec
treats it (a conflict-ignoring bulk insert is not an error). -/
def ingestStep (now : DT) (st : IngestState) (row : RawRow) : IngestState :=
  match cleanTransactionData row now with
  | some tx =>
    let b := st.batch ++ [tx]
    if 1000 ≤ b.length then
      { st with rows_processed := st.rows_processed + b.length, batch := [],
                bulk_calls := st.bulk_calls + 1 }
    else { st with batch := b }
  | none => { st with rows_failed := st.rows_failed + 1 }

/-- End-of-input flush of a non-empty partial batch (`tasks.py` lines 70-72). -/
def finalFlush (st : IngestState) : IngestState :=
  if st.batch = [] then st
  else { st with rows_processed := st.rows_processed + st.batch.length, batch := [],
                 bulk_calls := st.bulk_calls + 1 }

/-- The completed run of `process_csv_file` over the data rows of the source:
fold the row loop, then flush the remainder.  A run that ends this way is the
one that transitions to `COMPLETED` with these final counters. -/
def processRows (rows : List RawRow) (now : DT) : IngestState :=
  finalFlush (rows.foldl (ingestStep now) ⟨0, 0, [], 0⟩)

/-- Number of rows of the source the validator accepts. -/
def validCount (rows : List RawRow) (now : DT) : Nat :=
  (rows.filter (fun r => (cleanTransactionData r now).isSome)).length

/-- Django's `Paginator.num_pages` for a plain object list with
`allow_empty_first_page`: one page when the list is empty, else
`ceil(count / per_page)`. -/
def numPages (count pageSize : Nat) : Nat :=
  if count = 0 then 1 else (count + pageSize - 1) / pageSize

/-- Django's `Paginator.get_page`: an out-of-range page number is clamped to
the last page (`EmptyPage` is caught and replaced by `num_pages`), and the
returned page holds the slice `[(p-1)*size, p*size)` of the object list. -/
def getPage (items : List α) (page pageSize : Nat) : List α :=
  let np := numPages items.length pageSize
  let p := if 1 ≤ page ∧ page ≤ np then page else np
  (items.drop ((p - 1) * pageSize)).take pageSize

/-- A merchant record: identifier and optional display name. -/
structure Merchant where
  merchant_id : String
  name : Option String
deriving DecidableEq, Repr, Inhabited

/-- The paginated response shape shared by the dormant-merchants and
anomalies endpoints. -/
structure Paginated (α : Type) where
  data : List α
  page : Int
  page_size : Int
  total : Nat
  total_pages : Nat
deriving DecidableEq, Repr

/-- Boolean success test for an endpoint result. -/
def isOkResult : Except String α → Bool
  | .ok _ => true
  | .error _ => false

/-- Merchants with no persisted transaction referencing them
(`analytics/api.py` lines 86-87). -/
def dormantList (merchants : List Merchant) (txs : List TxRecord) : List Merchant :=
  merchants.filter (fun m => txs.all (fun t => t.merchant_id ≠ m.merchant_id))

/-- The `dormant-merchants` endpoint (`analytics/api.py` lines 73-112):
reject out-of-range pagination parameters with HTTP 400, otherwise page the
dormant list with Django's paginator. -/
def dormantMerchantsEndpoint (merchants : List Merchant) (txs : List TxRecord)
    (page pageSize : Int) : Except String (Paginated Merchant) :=
  if page < 1 ∨ pageSize < 1 ∨ 1000 < pageSize then
    .error "Invalid pagination parameters"
  else
    let dorm := dormantList merchants txs
    .ok { data := getPage dorm page.toNat pageSize.toNat, page := page,
          page_size := pageSize, total := dorm.length,
          total_pages := numPages dorm.length pageSize.toNat }

/-- Banker's rounding to an integer, Python's `round` on an exact value. -/
def roundHalfEven (x : ℚ) : Int :=
  let f := x.floor
  let r := x - (f : ℚ)
  if r < 1 / 2 then f
  else if 1 / 2 < r then f + 1
  else if f % 2 = 0 then f else f + 1

/-- Rounding to `p` decimal places, as the endpoints' `round(v, p)`. -/
def roundQ (x : ℚ) (p : Nat) : ℚ :=
  (roundHalfEven (x * 10 ^ p) : ℚ) / 10 ^ p

/-- Categories as the store's `values('category')` grouping yields them: the
distinct category values of the persisted transactions. -/
def distinctCategories (txs : List TxRecord) : List String :=
  (txs.map (fun t => t.category)).dedup

/-- The store's `Avg('amount')` for one category group (exact). -/
def categoryMean (txs : List TxRecord) (c : String) : ℚ :=
  let g := txs.filter (fun t => t.category = c)
  (g.map (fun t => t.amount.toRat)).sum / (g.length : ℚ)

/-- One flagged-transaction entry of the anomalies response
(`analytics/api.py` lines 181-190). -/
structure AnomalyEntry where
  transaction_id : String
  amount : ℚ
  category : String
  category_mean : ℚ
  category_std_dev : ℚ
  std_dev_from_mean : ℚ
deriving DecidableEq, Repr

/-- Build the response entry for one flagged transaction. -/
def mkAnomalyEntry (t : TxRecord) (mean sd : ℚ) : AnomalyEntry :=
  { transaction_id := t.transaction_id, amount := t.amount.toRat, category := t.category,
    category_mean := roundQ mean 2, category_std_dev := roundQ sd 2,
    std_dev_from_mean := roundQ ((t.amount.toRat - mean) / sd) 1 }

/-- The anomaly detector (`analytics/api.py` lines 166-193).  `stddevOf`
stands for the external store's `StdDev('amount')` aggregate per category
(`none` models a SQL `NULL`); the code skips a category whose reported
standard deviation is null or non-positive, flags every transaction of the
category whose amount strictly exceeds `mean + 3 * stddev`, and sorts the
merged entries by amount descending. -/
def anomaliesList (txs : List TxRecord) (stddevOf : String → Option ℚ) : List AnomalyEntry :=
  let entries := (distinctCategories txs).flatMap (fun c =>
    match stddevOf c with
    | some sd =>
      if 0 < sd then
        (txs.filter (fun t => t.category = c ∧ categoryMean txs c + 3 * sd < t.amount.toRat)).map
          (fun t => mkAnomalyEntry t (categoryMean txs c) sd)
      else []
    | none => [])
  entries.insertionSort (fun a b => b.amount ≤ a.amount)

/-- The `anomalies` endpoint (`analytics/api.py` lines 154-211): the same
pagination guard as `dormant-merchants`, then the sorted anomaly list paged
with Django's paginator. -/
def anomaliesEndpoint (txs : List TxRecord) (stddevOf : String → Option ℚ)
    (page pageSize : Int) : Except String (Paginated AnomalyEntry) :=
  if page < 1 ∨ pageSize < 1 ∨ 1000 < pageSize then
    .error "Invalid pagination parameters"
  else
    let l := anomaliesList txs stddevOf
    .ok { data := getPage l page.toNat pageSize.toNat, page := page,
          page_size := pageSize, total := l.length,
          total_pages := numPages l.length pageSize.toNat }

/-- One entry of the hourly-pattern response. -/
structure HourEntry where
  hour : Nat
  transaction_count : Nat
  average_amount : ℚ
deriving DecidableEq, Repr, Inhabited

/-- The `hourly-pattern` endpoint (`analytics/api.py` lines 114-152): the
store groups transactions by hour of day, and the response fills every hour
0-23 in order, a missing hour with count 0 and average 0.0. -/
def hourlyPattern (txs : List TxRecord) : List HourEntry :=
  (List.range 24).map (fun h =>
    let g := txs.filter (fun t => t.timestamp.hour = h)
    if g.length ≠ 0 then
      { hour := h, transaction_count := g.length,
        average_amount := roundQ ((g.map (fun t => t.amount.toRat)).sum / (g.length : ℚ)) 2 }
    else { hour := h, transaction_count := 0, average_amount := 0 })

/-- A submission as the gateway's pre-checks see it: the uploaded filename
and byte size, whether the decoded 2048-byte sample has non-blank content,
and the header row `csv.DictReader` reads from the sample (`none` when the
reader yields no field names). -/
structure Submission where
  filename : String
  size : Nat
  sampleHasContent : Bool
  headers : Option (List String)
deriving DecidableEq, Repr

/-- Outcome of the gateway's pre-flight phase: the HTTP status, the response
message, and whether a run record was created (the
`UploadTask.objects.create` call sits after every pre-check). -/
structure GatewayResult where
  status : Nat
  message : String
  run_created : Bool
deriving DecidableEq, Repr

/-- The seven required input headers, exact and case-sensitive
(`uploads/api.py` line 55). -/
def requiredHeaders : List String :=
  ["TRANSACTION_ID", "MERCHANT_ID", "ZONE", "CATEGORY", "AMOUNT", "TIMESTAMP", "CUSTOMER_PHONE"]

/-- Headers of `required_headers` absent from the submission's header row. -/
def missingHeaders (hs : List String) : List String :=
  requiredHeaders.filter (fun h => ¬ h ∈ hs)

/-- The pre-flight checks of `ingest_csv` (`uploads/api.py` lines 14-86), in
source order, up to the creation of the run record.  A submission passing
every check reaches `UploadTask.objects.create` and the `QUEUED` receipt. -/
def ingestCsv (sub : Submission) : GatewayResult :=
  if sub.size = 0 then ⟨400, "Empty file not allowed", false⟩
  else if ¬ strEndsWith sub.filename ".csv" then ⟨400, "Only CSV files allowed", false⟩
  else if 3 * 1024 * 1024 * 1024 < sub.size then ⟨400, "File too large (max 3GB)", false⟩
  else if ¬ sub.sampleHasContent then ⟨400, "File appears to be empty or corrupted", false⟩
  else
    match sub.headers with
    | none => ⟨400, "No CSV headers found", false⟩
    | some hs =>
      if hs = [] then ⟨400, "No CSV headers found", false⟩
      else if missingHeaders hs ≠ [] then
        ⟨400, "Missing required headers: " ++ String.intercalate ", " (missingHeaders hs), false⟩
      else ⟨200, "File accepted and queued for processing.", true⟩

/-- An aware `timezone.now()` instant (UTC, per `USE_TZ = True`): used as
the reference "current instant" in concrete evaluations. -/
def awareNow : DT := ⟨2026, 1, 1, 0, 0, 0, 0, some 0⟩

/-- A well-formed row whose timestamp is offset-less and strict-ISO
parseable. -/
def c2Row : RawRow :=
  ⟨"TXN-1", "M-1", "north", "Food", "100.50", "2023-01-15 10:30:00", "+8801712345678"⟩

/-- A well-formed row with a blank raw phone (and a fallback-format
timestamp, which the validator accepts). -/
def c3Row : RawRow :=
  ⟨"TXN-2", "M-2", "south", "Food", "250", "2023/01/15 10:30:00", ""⟩

/-- A well-formed row whose raw phone keeps a plus sign with an in-range
digit count. -/
def c3bRow : RawRow :=
  ⟨"TXN-3", "M-3", "east", "Food", "250", "2023/01/15 10:30:00", "+8801712345678"⟩

/-- Stated from the claim's words: the output phone is a string of 10 to 15
digits, or exactly the sentinel `INVALID`. -/
def claimPhoneOk (s : String) : Bool :=
  (s.data.all Char.isDigit && decide (10 ≤ s.length) && decide (s.length ≤ 15)) || s == "INVALID"

/-- A submission whose readable header row lacks exactly `AMOUNT`. -/
def c7Sub : Submission :=
  { filename := "transactions.csv", size := 1234, sampleHasContent := true,
    headers := some ["TRANSACTION_ID", "MERCHANT_ID", "ZONE", "CATEGORY", "TIMESTAMP", "CUSTOMER_PHONE"] }

/-- C2: contrary to the claim, an offset-less timestamp accepted by the
strict ISO parse is always rejected: the ISO branch never applies
`make_aware`, so its naive result is compared against the aware
`timezone.now()`, the comparison raises `TypeError`, and the handler turns
that into a rejection.  The second conjunct isolates the cause (the ISO
parse succeeds and is naive); the third shows the same row is accepted once
its timestamp is in a fallback-only format, confining the divergence to the
ISO branch. -/
theorem iso_naive_timestamp_rejected :
    cleanTransactionData c2Row awareNow = none ∧
    parseIso ("2023-01-15 10:30:00".data) = some ⟨2023, 1, 15, 10, 30, 0, 0, none⟩ ∧
    (cleanTransactionData { c2Row with timestamp := "2023/01/15 10:30:00" } awareNow).isSome = true := by
  refine ⟨by decide, by decide, by decide⟩

/-- C3 counterexample: the validator accepts a row whose raw phone is blank
and leaves the phone empty, and accepts a row whose raw phone keeps its plus
sign, storing `+8801712345678` (13 digits plus a non-digit character); in
neither case is the output a 10-to-15-digit string or the sentinel
`INVALID`. -/
theorem phone_claim_counterexample :
    (cleanTransactionData c3Row awareNow).map (fun r => claimPhoneOk r.customer_phone) =
      some false ∧
    (cleanTransactionData c3bRow awareNow).map
        (fun r => (claimPhoneOk r.customer_phone, r.customer_phone)) =
      some (false, "+8801712345678") := by
  refine ⟨by decide, by decide⟩

/-- C7: a submission that passes the earlier structural checks but whose
readable header row lacks required headers is rejected with HTTP 400 and a
message naming exactly the missing headers, and no run record is created. -/
theorem missing_headers_named_no_run (sub : Submission) (hs : List String)
    (hsz : sub.size ≠ 0) (hcsv : strEndsWith sub.filename ".csv" = true)
    (hlim : sub.size ≤ 3 * 1024 * 1024 * 1024) (hsam : sub.sampleHasContent = true)
    (hh : sub.headers = some hs) (hne : hs ≠ []) (hmiss : missingHeaders hs ≠ []) :
    ingestCsv sub =
      ⟨400, "Missing required headers: " ++ String.intercalate ", " (missingHeaders hs), false⟩ := by
  simp [ingestCsv, hh, hsz, hcsv, hsam, Nat.not_lt.mpr hlim, hne, hmiss]

/-- C7 witness: a submission missing exactly `AMOUNT` is rejected naming
`AMOUNT`, with no run record. -/
theorem missing_headers_named_no_run_witness :
    ingestCsv c7Sub = ⟨400, "Missing required headers: AMOUNT", false⟩ := by
  have h := missing_headers_named_no_run c7Sub
    ["TRANSACTION_ID", "MERCHANT_ID", "ZONE", "CATEGORY", "TIMESTAMP", "CUSTOMER_PHONE"]
    (by decide) (by decide) (by decide) (by decide) rfl (by decide) (by decide)
  rw [h]
  decide

/-- C8: both paginated endpoints reject exactly the out-of-range pagination
parameters (`page < 1`, `page_size < 1`, or `page_size > 1000`) at the
boundary; `page=1, page_size=1000` is accepted whatever the data; and an
in-range request over an empty result set is a valid response with an empty
data page, not an error. -/
theorem pagination_guard_spec (merchants : List Merchant) (txs : List TxRecord)
    (stddevOf : String → Option ℚ) (page pageSize : Int) :
    (isOkResult (dormantMerchantsEndpoint merchants txs page pageSize) = true ↔
      ¬(page < 1 ∨ pageSize < 1 ∨ 1000 < pageSize)) ∧
    (isOkResult (anomaliesEndpoint txs stddevOf page pageSize) = true ↔
      ¬(page < 1 ∨ pageSize < 1 ∨ 1000 < pageSize)) ∧
    isOkResult (dormantMerchantsEndpoint merchants txs 1 1000) = true ∧
    isOkResult (anomaliesEndpoint txs stddevOf 1 1000) = true ∧
    dormantMerchantsEndpoint [] txs 1 100 =
      .ok { data := [], page := 1, page_size := 100, total := 0, total_pages := 1 } := by
  refine ⟨?_, ?_, ?_, ?_, ?_⟩
  · unfold dormantMerchantsEndpoint
    split
    next h => simp [isOkResult, h]
    next h => simp [isOkResult, h]
  · unfold anomaliesEndpoint
    split
    next h => simp [isOkResult, h]
    next h => simp [isOkResult, h]
  · unfold dormantMerchantsEndpoint
    norm_num [isOkResult]
  · unfold anomaliesEndpoint
    norm_num [isOkResult]
  · rfl

/-- C9: for every persisted transaction set, the hourly pattern has exactly
24 entries; the entry at index `i` reports hour `i` (hours 0-23 in order);
and an hour with no transactions is reported with count 0 and average 0.0. -/
theorem hourly_pattern_spec (txs : List TxRecord) :
    (hourlyPattern txs).length = 24 ∧
    ∀ i, i < 24 →
      ∃ e, (hourlyPattern txs)[i]? = some e ∧ e.hour = i ∧
        ((∀ t ∈ txs, t.timestamp.hour ≠ i) →
          e.transaction_count = 0 ∧ e.average_amount = 0) := by
  constructor
  · simp [hourlyPattern]
  · intro i hi
    have hget : (hourlyPattern txs)[i]? = some (
        if (txs.filter (fun t => t.timestamp.hour = i)).length ≠ 0 then
          { hour := i,
            transaction_count := (txs.filter (fun t => t.timestamp.hour = i)).length,
            average_amount := roundQ
              (((txs.filter (fun t => t.timestamp.hour = i)).map (fun t => t.amount.toRat)).sum /
                ((txs.filter (fun t => t.timestamp.hour = i)).length : ℚ)) 2 }
        else { hour := i, transaction_count := 0, average_amount := 0 }) := by
      simp [hourlyPattern, List.getElem?_map, List.getElem?_range, hi]
    refine ⟨_, hget, ?_, ?_⟩
    · split <;> rfl
    · intro hnone
      have hfil : txs.filter (fun t => t.timestamp.hour = i) = [] := by
        rw [List.filter_eq_nil_iff]
        intro t ht
        simpa using hnone t ht
      rw [hfil]
      simp

/-- One loop iteration accounts for exactly one row: the sum of processed
rows, failed rows and pending batched rows grows by one. -/
theorem ingestStep_accounting (now : DT) (st : IngestState) (row : RawRow) :
    (ingestStep now st row).rows_processed + (ingestStep now st row).rows_failed +
        (ingestStep now st row).batch.length =
      st.rows_processed + st.rows_failed + st.batch.length + 1 := by
  unfold ingestStep
  cases h : cleanTransactionData row now with
  | none => simp; omega
  | some tx =>
    simp only
    split <;> simp <;> omega

/-- Folded accounting invariant for the row loop. -/
theorem foldl_ingest_accounting (now : DT) :
    ∀ (rows : List RawRow) (st : IngestState),
      (rows.foldl (ingestStep now) st).rows_processed +
          (rows.foldl (ingestStep now) st).rows_failed +
          (rows.foldl (ingestStep now) st).batch.length =
        st.rows_processed + st.rows_failed + st.batch.length + rows.length := by
  intro rows
  induction rows with
  | nil => intro st; simp
  | cons r rs ih =>
    intro st
    have h1 := ingestStep_accounting now st r
    have h2 := ih (ingestStep now st r)
    simp only [List.foldl_cons, List.length_cons]
    omega

/-- C5: for every completed run, the final `rows_processed` plus the final
`rows_rejected` equals the number of data rows of the source: every row is
counted exactly once. -/
theorem completed_run_accounting (rows : List RawRow) (now : DT) :
    (processRows rows now).rows_processed + (processRows rows now).rows_failed =
      rows.length := by
  have h := foldl_ingest_accounting now rows ⟨0, 0, [], 0⟩
  simp only [List.length_nil, Nat.add_zero, Nat.zero_add] at h
  unfold processRows finalFlush
  split
  next hb =>
    rw [hb] at h
    simp only [List.length_nil, Nat.add_zero] at h
    exact h
  next hb =>
    simp only []
    omega

/-- Folded batching invariant: starting from a batch below capacity, the
loop has issued one bulk call per 1000 validated records (counting the
records already pending), and the pending batch holds the remainder. -/
theorem foldl_ingest_batching (now : DT) :
    ∀ (rows : List RawRow) (st : IngestState), st.batch.length < 1000 →
      (rows.foldl (ingestStep now) st).bulk_calls =
          st.bulk_calls + (st.batch.length + validCount rows now) / 1000 ∧
        (rows.foldl (ingestStep now) st).batch.length =
          (st.batch.length + validCount rows now) % 1000 ∧
        (rows.foldl (ingestStep now) st).batch.length < 1000 := by
  intro rows
  induction rows with
  | nil =>
    intro st hst
    refine ⟨?_, ?_, hst⟩ <;>
      simp [validCount, Nat.mod_eq_of_lt hst, Nat.div_eq_of_lt hst]
  | cons r rs ih =>
    intro st hst
    simp only [List.foldl_cons]
    cases h : cleanTransactionData r now with
    | none =>
      have hvc : validCount (r :: rs) now = validCount rs now := by
        simp [validCount, List.filter_cons, h]
      have hstep : ingestStep now st r = { st with rows_failed := st.rows_failed + 1 } := by
        simp [ingestStep, h]
      rw [hstep, hvc]
      exact ih _ hst
    | some tx =>
      have hvc : validCount (r :: rs) now = validCount rs now + 1 := by
        simp [validCount, List.filter_cons, h]
      have hlen : (st.batch ++ [tx]).length = st.batch.length + 1 := by simp
      by_cases hfull : 1000 ≤ (st.batch ++ [tx]).length
      · have hstep : ingestStep now st r =
            { st with rows_processed := st.rows_processed + (st.batch ++ [tx]).length,
                      batch := [], bulk_calls := st.bulk_calls + 1 } := by
          simp only [ingestStep, h]
          rw [if_pos hfull]
        rw [hstep, hvc]
        obtain ⟨h1, h2, h3⟩ := ih
          { st with rows_processed := st.rows_processed + (st.batch ++ [tx]).length,
                    batch := [], bulk_calls := st.bulk_calls + 1 } (by simp)
        dsimp only at h1 h2
        simp only [List.length_nil, Nat.zero_add] at h1 h2
        refine ⟨?_, ?_, h3⟩
        · rw [h1]; omega
        · rw [h2]; omega
      · have hstep : ingestStep now st r = { st with batch := st.batch ++ [tx] } := by
          simp only [ingestStep, h]
          rw [if_neg hfull]
        rw [hstep, hvc]
        obtain ⟨h1, h2, h3⟩ := ih { st with batch := st.batch ++ [tx] }
          (show (st.batch ++ [tx]).length < 1000 by omega)
        dsimp only at h1 h2
        refine ⟨?_, ?_, h3⟩
        · rw [h1, hlen]; omega
        · rw [h2, hlen]; omega

/-- C6: a completed run issues exactly `ceil(n / 1000)` bulk-insert calls
for `n` validated records: one per full batch inside the loop plus one for a
non-empty final partial batch (`(n + 999) / 1000` in natural division). -/
theorem bulk_call_count (rows : List RawRow) (now : DT) :
    (processRows rows now).bulk_calls = (validCount rows now + 999) / 1000 := by
  obtain ⟨h1, h2, h3⟩ := foldl_ingest_batching now rows ⟨0, 0, [], 0⟩ (by simp)
  simp only [List.length_nil, Nat.zero_add] at h1 h2
  unfold processRows finalFlush
  split
  next hb =>
    rw [hb] at h2
    simp only [List.length_nil] at h2
    rw [h1]
    omega
  next hb =>
    simp only []
    have hne : (rows.foldl (ingestStep now) ⟨0, 0, [], 0⟩).batch.length ≠ 0 := by
      intro h0
      exact hb (List.length_eq_zero.mp h0)
    rw [h1]
    omega

/-- The fields of a record the validator returns: the amount comes from the
amount stage on the trimmed raw amount, the phone from the phone stage on
the trimmed raw phone. -/
theorem cleanTransactionData_fields (row : RawRow) (now : DT) (r : TxRecord)
    (h : cleanTransactionData row now = some r) :
    cleanAmount (strTrim row.amount) = some r.amount ∧
      r.customer_phone = cleanPhone (strTrim row.customer_phone) := by
  unfold cleanTransactionData at h
  split at h
  · exact absurd h (by simp)
  · split at h
    next => exact absurd h (by simp)
    next a ha =>
      split at h
      next => exact absurd h (by simp)
      next ts hts =>
        rw [Option.some.injEq] at h
        subst h
        exact ⟨ha, rfl⟩

/-- The amount stage accepts only in-range values. -/
theorem cleanAmount_bounds (s : String) (a : Dec) (h : cleanAmount s = some a) :
    0 ≤ a.toRat ∧ a.toRat ≤ 1000000 := by
  unfold cleanAmount at h
  split at h
  · exact absurd h (by simp)
  next d hd =>
    split at h
    next hneg => exact absurd h (by simp)
    next hneg =>
      split at h
      next hgt => exact absurd h (by simp)
      next hgt =>
        rw [Option.some.injEq] at h
        rw [← h]
        have hpos : (0 : ℚ) < (10 : ℚ) ^ d.exp := by positivity
        constructor
        · have hm : (0 : Int) ≤ d.mant := by
            simp [Dec.isNeg] at hneg
            omega
          unfold Dec.toRat
          apply div_nonneg
          · exact_mod_cast hm
          · positivity
        · have hm : d.mant ≤ (1000000 : Int) * 10 ^ d.exp := by
            simp [Dec.gtNat] at hgt
            omega
          unfold Dec.toRat
          rw [div_le_iff₀ hpos]
          calc (d.mant : ℚ) ≤ (((1000000 : Int) * 10 ^ d.exp : Int) : ℚ) := by exact_mod_cast hm
            _ = 1000000 * (10 : ℚ) ^ d.exp := by push_cast; ring

/-- The `Decimal` negativity test reads back as its rational value being
negative. -/
theorem Dec.isNeg_iff (d : Dec) : d.isNeg = true ↔ d.toRat < 0 := by
  have hpos : (0 : ℚ) < (10 : ℚ) ^ d.exp := by positivity
  unfold Dec.isNeg Dec.toRat
  rw [decide_eq_true_eq, div_lt_iff₀ hpos, zero_mul]
  exact_mod_cast Iff.rfl

/-- The `Decimal` greater-than test reads back as its rational value
exceeding the bound. -/
theorem Dec.gtNat_iff (d : Dec) (n : Nat) : d.gtNat n = true ↔ (n : ℚ) < d.toRat := by
  have hpos : (0 : ℚ) < (10 : ℚ) ^ d.exp := by positivity
  unfold Dec.gtNat Dec.toRat
  rw [decide_eq_true_eq, lt_div_iff₀ hpos]
  constructor
  · intro h
    exact_mod_cast h
  · intro h
    exact_mod_cast h

/-- C4: the amount stage strips to digits, dot and minus, parses the exact
decimal, and rejects precisely the unparsable, negative, or above-1,000,000
results; consequently every accepted record's amount lies in
[0, 1000000]. -/
theorem amount_stage_spec :
    (∀ s : String, cleanAmount s = none ↔
        (parseDecimal (stripAmountChars s) = none ∨
          ∃ a, parseDecimal (stripAmountChars s) = some a ∧
            (a.toRat < 0 ∨ (1000000 : ℚ) < a.toRat))) ∧
    (∀ (row : RawRow) (now : DT) (r : TxRecord), cleanTransactionData row now = some r →
      0 ≤ r.amount.toRat ∧ r.amount.toRat ≤ 1000000) := by
  constructor
  · intro s
    unfold cleanAmount
    cases hd : parseDecimal (stripAmountChars s) with
    | none => simp
    | some d =>
      have hneg := Dec.isNeg_iff d
      have hgt := Dec.gtNat_iff d 1000000
      dsimp only
      split_ifs with h1 h2
      · simp [hneg.mp h1]
      · have h2Q : (1000000 : ℚ) < d.toRat := by exact_mod_cast hgt.mp h2
        simp [h2Q]
      · have hn1 : ¬ d.toRat < 0 := fun hc => h1 (hneg.mpr hc)
        have hn2 : ¬ (1000000 : ℚ) < d.toRat := fun hc => h2 (hgt.mpr (by exact_mod_cast hc))
        simp [hn1, hn2]
  · intro row now r h
    obtain ⟨ha, _⟩ := cleanTransactionData_fields row now r h
    exact cleanAmount_bounds _ _ ha

/-- Digits surviving the digits-and-plus strip are exactly the digits of
the input, so the stage's digit count equals the raw digit count. -/
theorem filter_digit_of_kept (l : List Char) :
    (l.filter (fun c => c.isDigit || c = '+')).filter Char.isDigit =
      l.filter Char.isDigit := by
  rw [List.filter_filter]
  congr 1
  funext c
  cases h : c.isDigit <;> simp [h]

/-- Full characterization of the phone stage: the output is empty exactly
for a blank input, the sentinel exactly for a non-blank input whose digit
count is outside [10, 15], and otherwise a digits-and-plus string with 10
to 15 digits. -/
theorem cleanPhone_spec (p : String) :
    (cleanPhone p = "" ↔ p = "") ∧
    (cleanPhone p = "INVALID" ↔
      (p ≠ "" ∧ ((p.data.filter Char.isDigit).length < 10 ∨
        15 < (p.data.filter Char.isDigit).length))) ∧
    (cleanPhone p = "" ∨ cleanPhone p = "INVALID" ∨
      ((∀ c ∈ (cleanPhone p).data, c.isDigit = true ∨ c = '+') ∧
        10 ≤ ((cleanPhone p).data.filter Char.isDigit).length ∧
        ((cleanPhone p).data.filter Char.isDigit).length ≤ 15)) := by
  have hkept := filter_digit_of_kept p.data
  simp only [cleanPhone]
  split
  next hp =>
    subst hp
    refine ⟨Iff.rfl, ?_, Or.inl rfl⟩
    constructor
    · intro h
      exact absurd h (by decide)
    · rintro ⟨h, -⟩
      exact absurd rfl h
  next hp =>
    split
    next hdc =>
      simp only [Bool.or_eq_true, decide_eq_true_eq] at hdc
      rw [hkept] at hdc
      refine ⟨⟨fun h => absurd h (by decide), fun h => absurd h hp⟩,
        ⟨fun _ => ⟨hp, hdc⟩, fun _ => rfl⟩, Or.inr (Or.inl rfl)⟩
    next hdc =>
      simp only [Bool.or_eq_true, decide_eq_true_eq] at hdc
      push_neg at hdc
      obtain ⟨hlo, hhi⟩ := hdc
      dsimp only
      refine ⟨?_, ?_, Or.inr (Or.inr ⟨?_, hlo, hhi⟩)⟩
      · constructor
        · intro h
          have hdata : p.data.filter (fun c => c.isDigit || c = '+') = [] :=
            congrArg String.data h
          rw [hdata] at hlo
          simp at hlo
        · intro h
          exact absurd h hp
      · constructor
        · intro h
          have hdata : p.data.filter (fun c => c.isDigit || c = '+') = "INVALID".data :=
            congrArg String.data h
          have hmem : 'I' ∈ p.data.filter (fun c => c.isDigit || c = '+') := by
            rw [hdata]
            decide
          have := (List.mem_filter.mp hmem).2
          exact absurd this (by decide)
        · rintro ⟨-, hrange⟩
          rw [← hkept] at hrange
          omega
      · intro c hc
        have := (List.mem_filter.mp hc).2
        simp only [Bool.or_eq_true, decide_eq_true_eq] at this
        exact this

/-- C3 amended: the phone field never causes rejection (the validator's
acceptance is independent of it), and for every accepted record the output
phone is the empty string exactly when the trimmed raw phone is blank, the
sentinel `INVALID` exactly when the trimmed raw phone is non-blank with a
digit count outside [10, 15], and otherwise a string of digits and plus
signs containing 10 to 15 digits. -/
theorem phone_normalization_amended (row : RawRow) (now : DT) :
    (∀ p : String, (cleanTransactionData { row with customer_phone := p } now).isSome =
        (cleanTransactionData row now).isSome) ∧
    ∀ r, cleanTransactionData row now = some r →
      (r.customer_phone = "" ↔ strTrim row.customer_phone = "") ∧
      (r.customer_phone = "INVALID" ↔
        (strTrim row.customer_phone ≠ "" ∧
          (((strTrim row.customer_phone).data.filter Char.isDigit).length < 10 ∨
            15 < ((strTrim row.customer_phone).data.filter Char.isDigit).length))) ∧
      (r.customer_phone = "" ∨ r.customer_phone = "INVALID" ∨
        ((∀ c ∈ r.customer_phone.data, c.isDigit = true ∨ c = '+') ∧
          10 ≤ (r.customer_phone.data.filter Char.isDigit).length ∧
          (r.customer_phone.data.filter Char.isDigit).length ≤ 15)) := by
  constructor
  · intro p
    unfold cleanTransactionData
    dsimp only
    by_cases hc : strTrim row.transaction_id = "" ∨ strTrim row.merchant_id = "" ∨
        strUpper (strTrim row.zone) = "" ∨ titleCase (strTrim row.category) = "" ∨
        strTrim row.amount = "" ∨ strTrim row.timestamp = ""
    · rw [if_pos hc, if_pos hc]
    · rw [if_neg hc, if_neg hc]
      cases cleanAmount (strTrim row.amount) with
      | none => rfl
      | some a =>
        dsimp only
        cases cleanTimestamp (strTrim row.timestamp) now with
        | none => rfl
        | some ts => rfl
  · intro r h
    obtain ⟨-, hph⟩ := cleanTransactionData_fields row now r h
    rw [hph]
    exact cleanPhone_spec (strTrim row.customer_phone)

/-- C1: an entry appears in the anomalies output exactly for the
transactions whose category has a reported standard deviation that is
defined and strictly positive and whose amount strictly exceeds the
category mean plus three reported standard deviations; and the output is
sorted by amount descending. -/
theorem anomaly_detector_spec (txs : List TxRecord) (stddevOf : String → Option ℚ) :
    (∀ e, e ∈ anomaliesList txs stddevOf ↔
        ∃ t ∈ txs, ∃ sd, stddevOf t.category = some sd ∧ 0 < sd ∧
          categoryMean txs t.category + 3 * sd < t.amount.toRat ∧
          e = mkAnomalyEntry t (categoryMean txs t.category) sd) ∧
    (anomaliesList txs stddevOf).Sorted (fun a b => b.amount ≤ a.amount) := by
  simp only [anomaliesList]
  constructor
  · intro e
    rw [(List.perm_insertionSort _ _).mem_iff]
    constructor
    · intro he
      rw [List.mem_flatMap] at he
      obtain ⟨c, hc, hec⟩ := he
      cases hsd : stddevOf c with
      | none => rw [hsd] at hec; simp at hec
      | some sd =>
        simp only [hsd] at hec
        by_cases hpos : 0 < sd
        · rw [if_pos hpos] at hec
          rw [List.mem_map] at hec
          obtain ⟨t, ht, rfl⟩ := hec
          rw [List.mem_filter] at ht
          obtain ⟨htx, hcond⟩ := ht
          simp only [decide_eq_true_eq] at hcond
          obtain ⟨hcat, hlt⟩ := hcond
          subst hcat
          exact ⟨t, htx, sd, hsd, hpos, hlt, rfl⟩
        · rw [if_neg hpos] at hec
          simp at hec
    · rintro ⟨t, ht, sd, hsd, hpos, hlt, rfl⟩
      rw [List.mem_flatMap]
      refine ⟨t.category, ?_, ?_⟩
      · unfold distinctCategories
        rw [List.mem_dedup]
        exact List.mem_map_of_mem _ ht
      · simp only [hsd]
        rw [if_pos hpos, List.mem_map]
        exact ⟨t, List.mem_filter.mpr ⟨ht, by simp [hlt]⟩, rfl⟩
  · haveI : IsTotal AnomalyEntry (fun a b => b.amount ≤ a.amount) :=
      ⟨fun a b => le_total b.amount a.amount⟩
    haveI : IsTrans AnomalyEntry (fun a b => b.amount ≤ a.amount) :=
      ⟨fun a b c hab hbc => le_trans hbc hab⟩
    exact List.sorted_insertionSort _ _

/-- A paginator always has at least one page. -/
theorem one_le_numPages (c ps : Nat) (h : 1 ≤ ps) : 1 ≤ numPages c ps := by
  unfold numPages
  split
  · omega
  next hc =>
    exact (Nat.one_le_div_iff (by omega)).mpr (by omega)

/-- Django's `get_page` on an overflowing page number returns the last
page, which is non-empty whenever the object list is. -/
theorem getPage_overflow (items : List α) (ps p : Nat) (hps : 1 ≤ ps)
    (hp : numPages items.length ps < p) :
    getPage items p ps = getPage items (numPages items.length ps) ps ∧
      (items ≠ [] → getPage items (numPages items.length ps) ps ≠ []) := by
  have hnp1 : 1 ≤ numPages items.length ps := one_le_numPages _ _ hps
  constructor
  · simp only [getPage]
    rw [if_neg (by omega), if_pos (by omega)]
  · intro hne
    simp only [getPage]
    rw [if_pos (by omega)]
    have hlen : 0 < items.length := List.length_pos.mpr hne
    have hq : (numPages items.length ps - 1) * ps < items.length := by
      unfold numPages
      rw [if_neg (by omega)]
      have hdm : ((items.length + ps - 1) / ps) * ps ≤ items.length + ps - 1 :=
        Nat.div_mul_le_self _ _
      have hone : 1 ≤ (items.length + ps - 1) / ps :=
        (Nat.one_le_div_iff (by omega)).mpr (by omega)
      have hsub : ((items.length + ps - 1) / ps - 1) * ps =
          ((items.length + ps - 1) / ps) * ps - ps := by
        rw [Nat.sub_mul, one_mul]
      omega
    apply List.ne_nil_of_length_pos
    rw [List.length_take, List.length_drop]
    omega

/-- C10: on both paginated endpoints, an in-range page size with a page
number strictly beyond the last page yields the last page's items (the page
number is clamped), not an empty data list and not a rejection; the
returned slice is non-empty whenever the underlying list is. -/
theorem page_overflow_clamped (merchants : List Merchant) (txs : List TxRecord)
    (stddevOf : String → Option ℚ) (page pageSize : Int)
    (h1 : 1 ≤ pageSize) (h2 : pageSize ≤ 1000) :
    (numPages (dormantList merchants txs).length pageSize.toNat < page.toNat →
      dormantMerchantsEndpoint merchants txs page pageSize =
        .ok { data := getPage (dormantList merchants txs)
                  (numPages (dormantList merchants txs).length pageSize.toNat) pageSize.toNat,
              page := page, page_size := pageSize,
              total := (dormantList merchants txs).length,
              total_pages := numPages (dormantList merchants txs).length pageSize.toNat } ∧
        (dormantList merchants txs ≠ [] →
          getPage (dormantList merchants txs)
            (numPages (dormantList merchants txs).length pageSize.toNat) pageSize.toNat ≠ [])) ∧
    (numPages (anomaliesList txs stddevOf).length pageSize.toNat < page.toNat →
      anomaliesEndpoint txs stddevOf page pageSize =
        .ok { data := getPage (anomaliesList txs stddevOf)
                  (numPages (anomaliesList txs stddevOf).length pageSize.toNat) pageSize.toNat,
              page := page, page_size := pageSize,
              total := (anomaliesList txs stddevOf).length,
              total_pages := numPages (anomaliesList txs stddevOf).length pageSize.toNat } ∧
        (anomaliesList txs stddevOf ≠ [] →
          getPage (anomaliesList txs stddevOf)
            (numPages (anomaliesList txs stddevOf).length pageSize.toNat) pageSize.toNat ≠ [])) := by
  constructor
  · intro hover
    have hnp1 : 1 ≤ numPages (dormantList merchants txs).length pageSize.toNat :=
      one_le_numPages _ _ (by omega)
    obtain ⟨heq, hne⟩ :=
      getPage_overflow (dormantList merchants txs) pageSize.toNat page.toNat (by omega) hover
    constructor
    · simp only [dormantMerchantsEndpoint]
      rw [if_neg (by omega), heq]
    · exact hne
  · intro hover
    have hnp1 : 1 ≤ numPages (anomaliesList txs stddevOf).length pageSize.toNat :=
      one_le_numPages _ _ (by omega)
    obtain ⟨heq, hne⟩ :=
      getPage_overflow (anomaliesList txs stddevOf) pageSize.toNat page.toNat (by omega) hover
    constructor
    · simp only [anomaliesEndpoint]
      rw [if_neg (by omega), heq]
    · exact hne

/-- C10 witness: one dormant merchant, page size 2, requested page 5: the
endpoint returns the single last page, non-empty. -/
theorem page_overflow_clamped_witness :
    dormantMerchantsEndpoint [⟨"M1", none⟩] [] 5 2 =
      .ok { data := [⟨"M1", none⟩], page := 5, page_size := 2, total := 1, total_pages := 1 } ∧
    getPage ([⟨"M1", none⟩] : List Merchant)
      (numPages (dormantList [⟨"M1", none⟩] [] : List Merchant).length 2) 2 ≠ [] := by
  have h := (page_overflow_clamped [⟨"M1", none⟩] [] (fun _ => none) 5 2 (by decide) (by decide)).1
    (by decide)
  constructor
  · rw [h.1]
    rfl
  · exact h.2 (by decide)
